import Mathlib

/-!
Shallow embedding of the STX default panic handler
(`src/include/stx/panic/handlers/default/default.h`, function `panic_default`).

The handler's observable behaviour is modelled as a trace of events on the
shared diagnostic sink (`stderr`): acquiring and releasing the static
`stderr_lock` mutex, writing byte chunks (`std::fputs` / `std::fputc` /
formatted writes), and flushing (`std::fflush`).  An `Event.terminate`
constructor is available so that a call to `std::abort` (or any other form of
abnormal process termination) could be represented in a trace; `panic_default`
itself contains no such call, so its trace never contains this event.

Bytes are modelled as `Char` (the handler writes them through `fputc`/`fputs`
one `char` at a time or as C strings; no arithmetic is ever performed on
them).  `uint_least32_t` source-location fields are modelled as `Nat` holding
the stored 32-bit value; the `size_t` thread-id hash is modelled as `Nat`.

`stx/backtrace.h` is not part of the sources, so the backtrace capturer
(`backtrace::trace`), and the `print_none` / `print_ptr` helpers whose
definitions fall outside the provided excerpt of `default.h`, are modelled
from the specification (sections 4.3 and 4.5) and are marked as such below.
-/

namespace STX

/-- One observable action of the handler on the process/sink state.
`write` carries the bytes handed to `fputs`/`fputc`/`fprintf`; `flush`
models `fflush(stderr)`; `lock`/`unlock` model `stderr_lock.lock()` and
`stderr_lock.unlock()`; `terminate` would model abnormal process
termination (e.g. `std::abort`) — `panic_default` never performs it. -/
inductive Event : Type where
  | lock : Event
  | unlock : Event
  | write : List Char → Event
  | flush : Event
  | terminate : Event
  deriving DecidableEq

/-- The single-quote character `0x27`, used pervasively by the handler's
format strings. -/
def squote : Char := Char.ofNat 39

/-- `stx::SourceLocation` (its definition is not under `src/`; modelled from
the spec §3: `file_name`, `function_name`, and `line`/`column` as unsigned
integers with `0` meaning "unknown").  `line` and `column` hold the stored
`uint_least32_t` values, i.e. naturals below `2^32`. -/
structure SourceLocation where
  file_name : List Char
  function_name : List Char
  line : Nat
  column : Nat
  deriving DecidableEq

/-- `stx::ReportPayload` (not under `src/`; modelled from the spec §4.2: a
borrowed, possibly empty, opaque byte view exposed through `data()`). -/
structure ReportPayload where
  data : List Char
  deriving DecidableEq

/-- Modelled from the spec: a resolved backtrace symbol
(`backtrace::Symbol`, from the missing `stx/backtrace.h`); `raw` is the
byte view the handler iterates over with `fputc`. -/
structure Symbol where
  raw : List Char
  deriving DecidableEq

/-- Modelled from the spec §3: one captured stack frame
(`backtrace::Frame`, from the missing `stx/backtrace.h`); each field is
independently optional. -/
structure Frame where
  ip : Option Nat
  sp : Option Nat
  symbol : Option Symbol
  deriving DecidableEq

/-- The bytes an event contributes to the sink. -/
def bytesOf : Event → List Char
  | Event.write b => b
  | _ => []

/-- All bytes a trace of events writes to the sink, in order. -/
def sinkBytes (evs : List Event) : List Char :=
  (evs.map bytesOf).flatten

/-- `snprintf(buf, n, "%d", v)` applied to a `uint_least32_t` value `v`, as
`panic_default` does for `location.line()` and `location.column()`: the
32-bit value is consumed by the `%d` conversion as a signed `int` (the
de-facto varargs behaviour on the supported ABIs), so values at or above
`2^31` print with a minus sign as their two's-complement reinterpretation.
The buffer (256 bytes) can never overflow for a 32-bit value, so no
truncation is modelled. -/
def formatD (n : Nat) : List Char :=
  if n % 4294967296 < 2147483648 then (Nat.repr (n % 4294967296)).toList
  else '-' :: (Nat.repr (4294967296 - n % 4294967296)).toList

/-- Modelled from the spec: the `print_none` helper of `panic_default`
(its definition lies outside the provided excerpt of `default.h`); emits
the "unresolved" marker of spec §4.5 for an absent frame field. -/
def print_none : List Event :=
  [Event.write (("unresolved").toList)]

/-- Modelled from the spec: the `print_ptr` helper of `panic_default`
(outside the provided excerpt); emits an address in hexadecimal. -/
def print_ptr (p : Nat) : List Event :=
  [Event.write (("0x").toList ++ Nat.toDigits 16 p)]

/-- The visitor lambda `panic_default` passes to `backtrace::trace`
(`default.h` lines 126-150): prints the frame index (`fprintf "#%d\t\t"`),
the symbol bytes or `print_none`, the instruction pointer or `print_none`,
the stack pointer or `print_none`, and returns `false`. -/
def handlerVisit (frame : Frame) (i : Nat) : List Event × Bool :=
  ( [Event.write ('#' :: (Nat.repr i).toList ++ ['\t', '\t'])]
    ++ (match frame.symbol with
        | some sym => sym.raw.map (fun c => Event.write [c])
        | none => print_none)
    ++ [Event.write (("\t (ip: ").toList)]
    ++ (match frame.ip with
        | some p => print_ptr p
        | none => print_none)
    ++ [Event.write ((", sp: ").toList)]
    ++ (match frame.sp with
        | some p => print_ptr p
        | none => print_none)
    ++ [Event.write ((")\n").toList)]
  , false)

/-- Modelled from the spec §4.3: the recursion underlying
`backtrace::trace` (`stx/backtrace.h` is not under `src/`).  The visitor is
invoked once per remaining frame, innermost first, receiving the frame and
its index; iteration halts early as soon as the visitor returns `false`
("cancellation by callback-return").  The returned `Int` is the number of
frames the visitor was invoked on (`0` when there is nothing to walk —
spec §4.3 also allows a negative sentinel, which this model never
produces). -/
def traceFrom (visit : Frame → Nat → List Event × Bool) :
    List Frame → Nat → List Event × Int
  | [], _ => ([], 0)
  | f :: fs, i =>
    let r := visit f i
    if r.2 then
      let rest := traceFrom visit fs (i + 1)
      (r.1 ++ rest.1, rest.2 + 1)
    else (r.1, 1)

/-- Modelled from the spec §4.3: `backtrace::trace(visit, skip)` walking the
machine stack `stack` (passed explicitly here since the model has no access
to a real call stack): skips the first `skip` frames, then visits the rest
in order until exhaustion or cancellation. -/
def trace (visit : Frame → Nat → List Event × Bool) (skip : Nat)
    (stack : List Frame) : List Event × Int :=
  traceFrom visit (stack.drop skip) 0

/-- The `"\nBacktrace:\nip: Instruction Pointer,  sp: Stack Pointer\n\n"`
header (`default.h` lines 121-124). -/
def backtraceHeader : List Char :=
  ("\nBacktrace:\nip: Instruction Pointer,  sp: Stack Pointer\n\n").toList

/-- The raw-string warning of `default.h` lines 152-157, emitted when
`frames <= 0`; note the wording "couldn't be identified". -/
def stackWarning : List Char :=
  ("WARNING >> The stack frames couldn").toList ++ [squote]
    ++ ("t be identified, debug information was possibly stripped, unavailable, or elided by compiler\n").toList

/-- The `STX_ENABLE_PANIC_BACKTRACE` section of `panic_default`
(`default.h` lines 118-161): header, the visited frames' output, the
warning iff `frames <= 0`, and a final newline. -/
def btraceEvents (stack : List Frame) : List Event :=
  let tr := trace handlerVisit 1 stack
  [Event.write backtraceHeader]
    ++ tr.1
    ++ (if tr.2 ≤ 0 then [Event.write stackWarning] else [])
    ++ [Event.write (("\n").toList)]

/-- The writes `panic_default` performs between acquiring the lock and the
`fflush` (`default.h` lines 66-114), one event per `fputs`/`fputc` call, in
source order.  `tid` is the already-computed `kThreadIdHash` value (a
`size_t`, printed with `%zu`); `info` the `string_view` message iterated
with `fputc`; the payload section is guarded by
`!payload.data().empty()`. -/
def mainEvents (tid : Nat) (info : List Char) (payload : ReportPayload)
    (location : SourceLocation) : List Event :=
  [Event.write (("\nthread with hash: ").toList ++ [squote])]
  ++ [Event.write ((Nat.repr tid).toList)]
  ++ [Event.write ([squote] ++ (" panicked with: ").toList ++ [squote])]
  ++ info.map (fun c => Event.write [c])
  ++ (if payload.data.isEmpty then []
      else [Event.write [':'], Event.write [' ']]
        ++ payload.data.map (fun c => Event.write [c]))
  ++ [Event.write [squote]]
  ++ [Event.write ((" at function: ").toList ++ [squote])]
  ++ [Event.write location.function_name]
  ++ [Event.write ([squote] ++ (" [").toList)]
  ++ [Event.write location.file_name]
  ++ [Event.write [':']]
  ++ (if location.line ≠ 0 then [Event.write (formatD location.line)]
      else [Event.write (("unknown").toList)])
  ++ [Event.write [':']]
  ++ (if location.column ≠ 0 then [Event.write (formatD location.column)]
      else [Event.write (("unknown").toList)])
  ++ [Event.write (("]\n").toList)]

/-- Everything `panic_default` does between `stderr_lock.lock()` and
`stderr_lock.unlock()`: the main diagnostic writes, the `fflush`, and —
when the build enables `STX_ENABLE_PANIC_BACKTRACE` (`bt`) — the backtrace
section. -/
def panicBody (bt : Bool) (tid : Nat) (info : List Char)
    (payload : ReportPayload) (location : SourceLocation)
    (stack : List Frame) : List Event :=
  mainEvents tid info payload location
    ++ [Event.flush]
    ++ (if bt then btraceEvents stack else [])

/-- The full event trace of one `panic_default` invocation (`default.h`
lines 53-165): acquire `stderr_lock`, emit the body, release the lock.
The function then returns to its caller — there is no termination event. -/
def panic_default_events (bt : Bool) (tid : Nat) (info : List Char)
    (payload : ReportPayload) (location : SourceLocation)
    (stack : List Frame) : List Event :=
  Event.lock :: panicBody bt tid info payload location stack ++ [Event.unlock]

/-- Events that may legally occur strictly between the lock acquisition and
release: sink writes and flushes. -/
def benign : Event → Bool
  | Event.write _ => true
  | Event.flush => true
  | _ => false

/-- Recognizes a `write` event. -/
def isWrite : Event → Bool
  | Event.write _ => true
  | _ => false

/-- Boolean check that `p` occurs at the very front of `l`. -/
def startsWith : List Char → List Char → Bool
  | [], _ => true
  | _ :: _, [] => false
  | a :: as, b :: bs => a == b && startsWith as bs

/-- Boolean check that `p` occurs contiguously somewhere in `l`. -/
def containsSeq (p : List Char) : List Char → Bool
  | [] => startsWith p []
  | l@(_ :: rest) => startsWith p l || containsSeq p rest

/-- Is there a `write` event anywhere in the list? -/
def writeAhead : List Event → Bool
  | [] => false
  | Event.write _ :: _ => true
  | _ :: rest => writeAhead rest

/-- Is there a `write` event strictly after some `flush` event? -/
def writeAfterFlush : List Event → Bool
  | [] => false
  | Event.flush :: rest => writeAhead rest || writeAfterFlush rest
  | _ :: rest => writeAfterFlush rest

/-!
### Interleaving semantics for concurrent panics

Any number of threads may run `panic_default` concurrently (spec §5).  A
system state holds each thread's remaining event program, the owner of the
`stderr_lock` mutex, and the bytes accumulated in the sink.  A scheduler is
an arbitrary list of thread indices; a scheduled thread performs its next
event if it is enabled (acquiring the free mutex, releasing a mutex it
holds, writing or flushing at any time — the sink itself enforces nothing)
and does nothing if it is blocked or finished.
-/

/-- Global state of `n` concurrently panicking threads sharing `stderr` and
the static `stderr_lock`. -/
structure Sys where
  prog : Nat → List Event
  holder : Option Nat
  out : List Char

/-- Pointwise update of a thread-indexed program map. -/
def updFn (f : Nat → List Event) (t : Nat) (v : List Event) :
    Nat → List Event :=
  fun x => if x = t then v else f x

/-- One scheduling step: thread `t` attempts its next event.  A `lock`
succeeds only when the mutex is free; an `unlock` only for the owner;
`write`/`flush` always proceed (mutual exclusion of the sink is *not*
assumed — it has to be a consequence of the programs' shape); a finished
or blocked thread leaves the state unchanged. -/
def stepT (s : Sys) (t : Nat) : Sys :=
  match s.prog t with
  | Event.lock :: rest =>
    if s.holder = none then ⟨updFn s.prog t rest, some t, s.out⟩ else s
  | Event.unlock :: rest =>
    if s.holder = some t then ⟨updFn s.prog t rest, none, s.out⟩ else s
  | Event.write b :: rest => ⟨updFn s.prog t rest, s.holder, s.out ++ b⟩
  | Event.flush :: rest => ⟨updFn s.prog t rest, s.holder, s.out⟩
  | Event.terminate :: _ => s
  | [] => s

/-- Run a whole schedule. -/
def run (s : Sys) : List Nat → Sys
  | [] => s
  | t :: ts => run (stepT s t) ts

/-- A thread's complete program for a critical-section body `b`:
acquire, run the body, release. -/
def fullProg (b : List Event) : List Event :=
  Event.lock :: b ++ [Event.unlock]

/-- Initial state: each of the `bodies.length` threads is about to run its
body under the lock (indices beyond that have nothing to do); the mutex is
free and the sink is empty. -/
def initSys (bodies : List (List Event)) : Sys :=
  ⟨fun t => if t < bodies.length then fullProg (bodies.getD t []) else [],
    none, []⟩

/-- Invariant tying a reachable state to the acquisition order `done` of
the threads that already completed their critical sections: the sink holds
exactly their blocks in order, plus — while some thread holds the lock —
the prefix of the holder's block written so far; every other thread has
either finished or not yet started. -/
def Inv (bodies : List (List Event)) (s : Sys) : Prop :=
  (∀ t, bodies.length ≤ t → s.prog t = []) ∧
  ∃ done : List Nat, done.Nodup ∧ (∀ t ∈ done, t < bodies.length) ∧
    ((s.holder = none ∧
        s.out = (done.map (fun t => sinkBytes (bodies.getD t []))).flatten ∧
        ∀ t, t < bodies.length →
          (t ∈ done ∧ s.prog t = []) ∨
          (t ∉ done ∧ s.prog t = fullProg (bodies.getD t [])))
     ∨ (∃ h k,
          s.holder = some h ∧ h < bodies.length ∧ h ∉ done ∧
          k ≤ (bodies.getD h []).length ∧
          s.prog h = (bodies.getD h []).drop k ++ [Event.unlock] ∧
          s.out = (done.map (fun t => sinkBytes (bodies.getD t []))).flatten
            ++ sinkBytes ((bodies.getD h []).take k) ∧
          ∀ t, t < bodies.length → t ≠ h →
            (t ∈ done ∧ s.prog t = []) ∨
            (t ∉ done ∧ s.prog t = fullProg (bodies.getD t []))))

/-- Per-thread inputs of one concurrent `panic_default` call. -/
structure PanicCall where
  tid : Nat
  info : List Char
  payload : ReportPayload
  loc : SourceLocation
  stack : List Frame
  deriving DecidableEq

/-- The critical-section body of one call. -/
def callBody (bt : Bool) (c : PanicCall) : List Event :=
  panicBody bt c.tid c.info c.payload c.loc c.stack

/-- The full `panic_default` trace of one call. -/
def callEvents (bt : Bool) (c : PanicCall) : List Event :=
  panic_default_events bt c.tid c.info c.payload c.loc c.stack

/-- Placeholder call used only as the `getD` default. -/
def noCall : PanicCall :=
  ⟨0, [], ⟨[]⟩, ⟨[], [], 0, 0⟩, []⟩

/-- Concrete first call used by the concurrency witness. -/
def wCallA : PanicCall :=
  ⟨11, ("a").toList, ⟨[]⟩, ⟨("f.cpp").toList, ("fa").toList, 1, 2⟩, []⟩

/-- Concrete second call used by the concurrency witness. -/
def wCallB : PanicCall :=
  ⟨22, ("b").toList, ⟨("pq").toList⟩,
    ⟨("g.cpp").toList, ("gb").toList, 0, 5⟩, []⟩

/-- Concrete alternating two-thread schedule used by the concurrency
witness: thread 1 repeatedly attempts steps (and blocks on the mutex)
while thread 0 is inside its critical section. -/
def wSched : List Nat :=
  (List.range 100).map (fun i => i % 2)

/-!
## Theorems
-/

theorem sinkBytes_nil : sinkBytes [] = [] := rfl

theorem sinkBytes_cons (e : Event) (evs : List Event) :
    sinkBytes (e :: evs) = bytesOf e ++ sinkBytes evs := rfl

theorem sinkBytes_append (a b : List Event) :
    sinkBytes (a ++ b) = sinkBytes a ++ sinkBytes b := by
  simp [sinkBytes]

theorem flatten_singleton_map (l : List Char) :
    (l.map (fun c => [c])).flatten = l := by
  induction l with
  | nil => rfl
  | cons c cs ih => simp [ih]

theorem flatten_map_bytesOf_write (l : List Char) :
    (List.map (bytesOf ∘ fun c => Event.write [c]) l).flatten = l := by
  induction l with
  | nil => rfl
  | cons c cs ih => simp [bytesOf, ih]

theorem sinkBytes_map_write (l : List Char) :
    sinkBytes (l.map (fun c => Event.write [c])) = l := by
  simp [sinkBytes, List.map_map, flatten_map_bytesOf_write]

/-- Closed form of everything one `panic_default` call writes to the sink,
field by field in source order. -/
theorem sink_panic_decomp (bt : Bool) (tid : Nat) (info : List Char)
    (payload : ReportPayload) (location : SourceLocation)
    (stack : List Frame) :
    sinkBytes (panic_default_events bt tid info payload location stack) =
      ("\nthread with hash: ").toList ++ [squote]
      ++ (Nat.repr tid).toList
      ++ ([squote] ++ (" panicked with: ").toList ++ [squote])
      ++ info
      ++ (if payload.data.isEmpty then []
          else [':'] ++ [' '] ++ payload.data)
      ++ [squote]
      ++ ((" at function: ").toList ++ [squote])
      ++ location.function_name
      ++ ([squote] ++ (" [").toList)
      ++ location.file_name
      ++ [':']
      ++ (if location.line ≠ 0 then formatD location.line
          else ("unknown").toList)
      ++ [':']
      ++ (if location.column ≠ 0 then formatD location.column
          else ("unknown").toList)
      ++ ("]\n").toList
      ++ (if bt then sinkBytes (btraceEvents stack) else []) := by
  cases hp : payload.data.isEmpty <;>
    by_cases hl : location.line = 0 <;>
    by_cases hc : location.column = 0 <;>
    cases bt <;>
    simp [panic_default_events, panicBody, mainEvents, hp, hl, hc,
      sinkBytes_append, sinkBytes_cons, sinkBytes_map_write, sinkBytes,
      bytesOf, List.map_map, flatten_map_bytesOf_write]

/-- Claim C2: for every message `M` and payload `P` (possibly empty), the
default panic handler writes `M` verbatim to the sink; when `P` is
non-empty, `P` follows verbatim after the delimiter `": "` that follows
`M`; when `P` is empty, no delimiter and no payload section appear. -/
theorem claim_C2 (bt : Bool) (tid : Nat) (info : List Char)
    (payload : ReportPayload) (location : SourceLocation)
    (stack : List Frame) :
    ∃ post : List Char,
      sinkBytes (panic_default_events bt tid info payload location stack) =
        (("\nthread with hash: ").toList ++ [squote] ++ (Nat.repr tid).toList
          ++ [squote] ++ (" panicked with: ").toList ++ [squote])
        ++ info
        ++ (if payload.data = [] then []
            else [':'] ++ [' '] ++ payload.data)
        ++ post := by
  refine ⟨[squote]
      ++ ((" at function: ").toList ++ [squote])
      ++ location.function_name
      ++ ([squote] ++ (" [").toList)
      ++ location.file_name
      ++ [':']
      ++ (if location.line ≠ 0 then formatD location.line
          else ("unknown").toList)
      ++ [':']
      ++ (if location.column ≠ 0 then formatD location.column
          else ("unknown").toList)
      ++ ("]\n").toList
      ++ (if bt then sinkBytes (btraceEvents stack) else []), ?_⟩
  have h := sink_panic_decomp bt tid info payload location stack
  have hpe : payload.data.isEmpty = decide (payload.data = []) := by
    cases payload.data <;> simp
  rw [hpe] at h
  by_cases hd : payload.data = [] <;> simp [hd] at h ⊢ <;>
    simp [h]

/-- Claim C4: the fields are emitted in exactly this order: thread
identity, message, payload bytes (only when non-empty, after the
delimiter), function name, file name, line, column (followed by the
backtrace section when that build option is on). -/
theorem claim_C4 (bt : Bool) (tid : Nat) (info : List Char)
    (payload : ReportPayload) (location : SourceLocation)
    (stack : List Frame) :
    sinkBytes (panic_default_events bt tid info payload location stack) =
      ("\nthread with hash: ").toList ++ [squote]
      ++ (Nat.repr tid).toList
      ++ ([squote] ++ (" panicked with: ").toList ++ [squote])
      ++ info
      ++ (if payload.data.isEmpty then []
          else [':'] ++ [' '] ++ payload.data)
      ++ [squote]
      ++ ((" at function: ").toList ++ [squote])
      ++ location.function_name
      ++ ([squote] ++ (" [").toList)
      ++ location.file_name
      ++ [':']
      ++ (if location.line ≠ 0 then formatD location.line
          else ("unknown").toList)
      ++ [':']
      ++ (if location.column ≠ 0 then formatD location.column
          else ("unknown").toList)
      ++ ("]\n").toList
      ++ (if bt then sinkBytes (btraceEvents stack) else []) :=
  sink_panic_decomp bt tid info payload location stack

theorem all_isWrite_mainEvents (tid : Nat) (info : List Char)
    (payload : ReportPayload) (location : SourceLocation) :
    (mainEvents tid info payload location).all isWrite = true := by
  unfold mainEvents
  split_ifs <;>
    simp [List.all_append, List.all_map, isWrite, List.all_eq_true]

theorem all_isWrite_handlerVisit (f : Frame) (i : Nat) :
    ((handlerVisit f i).1).all isWrite = true := by
  rcases f with ⟨ip, sp, sym⟩
  rcases ip <;> rcases sp <;> rcases sym <;>
    simp [handlerVisit, print_none, print_ptr, isWrite,
      List.all_append, List.all_map, List.all_eq_true]

theorem all_isWrite_traceFrom
    (visit : Frame → Nat → List Event × Bool)
    (hv : ∀ f i, ((visit f i).1).all isWrite = true) :
    ∀ (l : List Frame) (i : Nat),
      ((traceFrom visit l i).1).all isWrite = true := by
  intro l
  induction l with
  | nil => intro i; rfl
  | cons f fs ih =>
    intro i
    by_cases hr : (visit f i).2 <;>
      simp [traceFrom, hr, List.all_append, hv, ih]

theorem all_isWrite_btraceEvents (stack : List Frame) :
    (btraceEvents stack).all isWrite = true := by
  have htr := all_isWrite_traceFrom handlerVisit all_isWrite_handlerVisit
    (stack.drop 1) 0
  rw [List.drop_one] at htr
  have htr2 := List.all_eq_true.mp htr
  unfold btraceEvents trace
  rw [List.drop_one]
  by_cases h : (traceFrom handlerVisit stack.tail 0).2 ≤ 0 <;>
    simp [h, List.all_append, isWrite] <;>
    exact fun x hx => htr2 x hx

theorem all_benign_of_all_isWrite (l : List Event)
    (h : l.all isWrite = true) : l.all benign = true := by
  simp [List.all_eq_true] at h ⊢
  intro e he
  have := h e he
  cases e <;> simp_all [isWrite, benign]

theorem all_benign_panicBody (bt : Bool) (tid : Nat) (info : List Char)
    (payload : ReportPayload) (location : SourceLocation)
    (stack : List Frame) :
    (panicBody bt tid info payload location stack).all benign = true := by
  unfold panicBody
  have h1 := all_benign_of_all_isWrite _
    (all_isWrite_mainEvents tid info payload location)
  have h2 := all_benign_of_all_isWrite _ (all_isWrite_btraceEvents stack)
  cases bt <;> simp [List.all_append, h1, h2, benign]

theorem not_mem_of_all_benign (l : List Event)
    (h : l.all benign = true) :
    Event.lock ∉ l ∧ Event.unlock ∉ l ∧ Event.terminate ∉ l := by
  simp [List.all_eq_true] at h
  refine ⟨?_, ?_, ?_⟩ <;> intro hm <;> simpa [benign] using h _ hm

/-- Claim C10 (implicit): every invocation acquires the static sink mutex
exactly once and releases it exactly once, all sink activity happens
strictly between the acquisition and release, and the trace ends with the
release (the function returns only after unlocking). -/
theorem claim_C10 (bt : Bool) (tid : Nat) (info : List Char)
    (payload : ReportPayload) (location : SourceLocation)
    (stack : List Frame) :
    panic_default_events bt tid info payload location stack
        = Event.lock :: panicBody bt tid info payload location stack
            ++ [Event.unlock]
      ∧ (panicBody bt tid info payload location stack).all benign = true
      ∧ (panic_default_events bt tid info payload location stack).count
          Event.lock = 1
      ∧ (panic_default_events bt tid info payload location stack).count
          Event.unlock = 1
      ∧ (panic_default_events bt tid info payload location stack).getLast?
          = some Event.unlock := by
  have hben := all_benign_panicBody bt tid info payload location stack
  obtain ⟨hl, hu, _⟩ := not_mem_of_all_benign _ hben
  refine ⟨rfl, hben, ?_, ?_, ?_⟩
  · simp [panic_default_events, List.count_cons, List.count_append,
      List.count_eq_zero.mpr hl]
  · simp [panic_default_events, List.count_cons, List.count_append,
      List.count_eq_zero.mpr hu]
  · show ((Event.lock :: panicBody bt tid info payload location stack)
        ++ [Event.unlock]).getLast? = some Event.unlock
    exact List.getLast?_concat _

/-- Claim C1 (amended): `panic_default` performs no process-termination of
its own — its event trace contains no `terminate` action and ends with the
mutex release, after which control returns to the caller (the `panic`
entry point, outside this file's sources, is what aborts the process). -/
theorem claim_C1 (bt : Bool) (tid : Nat) (info : List Char)
    (payload : ReportPayload) (location : SourceLocation)
    (stack : List Frame) :
    (panic_default_events bt tid info payload location stack).contains
        Event.terminate = false
      ∧ (panic_default_events bt tid info payload location stack).getLast?
          = some Event.unlock := by
  have hben := all_benign_panicBody bt tid info payload location stack
  obtain ⟨_, _, ht⟩ := not_mem_of_all_benign _ hben
  constructor
  · have : Event.terminate
        ∉ panic_default_events bt tid info payload location stack := by
      intro hm
      simp only [panic_default_events, List.mem_cons, List.mem_append,
        List.mem_singleton] at hm
      rcases hm with (h | h) | h
      · exact absurd h (by simp)
      · exact ht h
      · exact absurd h (by simp)
    simpa using this
  · show ((Event.lock :: panicBody bt tid info payload location stack)
        ++ [Event.unlock]).getLast? = some Event.unlock
    exact List.getLast?_concat _

/-- Counterexample to claim C1 as stated: at a concrete invocation the
handler's trace contains no termination action at all and its final action
is the mutex release, i.e. `panic_default` returns control to its caller
instead of terminating the process. -/
theorem claim_C1_cex :
    (panic_default_events false 7 (("boom").toList) ⟨[]⟩
        ⟨("f.cpp").toList, ("fn").toList, 3, 4⟩ []).contains
        Event.terminate = false
      ∧ (panic_default_events false 7 (("boom").toList) ⟨[]⟩
          ⟨("f.cpp").toList, ("fn").toList, 3, 4⟩ []).getLast?
          = some Event.unlock := by
  decide

/-- Claim C5 (amended): within the critical section the handler first
performs only writes (the main diagnostic block), then the single
`fflush`, then — only in a backtrace-enabled build — the backtrace
section's writes, and finally the mutex release.  The flush therefore
precedes the unlock in every build, but in a backtrace-enabled build the
backtrace bytes are written after the flush, not before it. -/
theorem claim_C5 (bt : Bool) (tid : Nat) (info : List Char)
    (payload : ReportPayload) (location : SourceLocation)
    (stack : List Frame) :
    panic_default_events bt tid info payload location stack
        = Event.lock :: mainEvents tid info payload location
            ++ Event.flush ::
              ((if bt then btraceEvents stack else []) ++ [Event.unlock])
      ∧ (mainEvents tid info payload location).all isWrite = true
      ∧ (btraceEvents stack).all isWrite = true := by
  refine ⟨?_, all_isWrite_mainEvents tid info payload location,
    all_isWrite_btraceEvents stack⟩
  simp [panic_default_events, panicBody]

/-- Counterexample to claim C5 as stated: in a backtrace-enabled build a
concrete invocation writes sink bytes strictly after the flush (the
backtrace block), while with backtraces disabled no write follows the
flush. -/
theorem claim_C5_cex :
    writeAfterFlush (panic_default_events true 7 (("boom").toList) ⟨[]⟩
        ⟨("f.cpp").toList, ("fn").toList, 3, 4⟩ []) = true
      ∧ writeAfterFlush (panic_default_events false 7 (("boom").toList)
          ⟨[]⟩ ⟨("f.cpp").toList, ("fn").toList, 3, 4⟩ []) = false := by
  decide

/-- Claim C3 (amended): for stored 32-bit line/column values, a `0` field
renders as the literal `"unknown"`; a non-zero value below `2^31` renders
as its decimal representation; a value in `[2^31, 2^32)` renders — because
the handler formats the unsigned field with the `%d` conversion — as the
decimal of its two's-complement signed reinterpretation, i.e. with a minus
sign, not as the value's decimal representation. -/
theorem claim_C3 (bt : Bool) (tid : Nat) (info : List Char)
    (payload : ReportPayload) (location : SourceLocation)
    (stack : List Frame)
    (hline : location.line < 4294967296)
    (hcol : location.column < 4294967296) :
    sinkBytes (panic_default_events bt tid info payload location stack) =
      ("\nthread with hash: ").toList ++ [squote]
      ++ (Nat.repr tid).toList
      ++ ([squote] ++ (" panicked with: ").toList ++ [squote])
      ++ info
      ++ (if payload.data.isEmpty then []
          else [':'] ++ [' '] ++ payload.data)
      ++ [squote]
      ++ ((" at function: ").toList ++ [squote])
      ++ location.function_name
      ++ ([squote] ++ (" [").toList)
      ++ location.file_name
      ++ [':']
      ++ (if location.line = 0 then ("unknown").toList
          else if location.line < 2147483648 then
            (Nat.repr location.line).toList
          else '-' :: (Nat.repr (4294967296 - location.line)).toList)
      ++ [':']
      ++ (if location.column = 0 then ("unknown").toList
          else if location.column < 2147483648 then
            (Nat.repr location.column).toList
          else '-' :: (Nat.repr (4294967296 - location.column)).toList)
      ++ ("]\n").toList
      ++ (if bt then sinkBytes (btraceEvents stack) else []) := by
  rw [sink_panic_decomp]
  have hfield : ∀ m : Nat, m < 4294967296 →
      (if m ≠ 0 then formatD m else ("unknown").toList)
        = (if m = 0 then ("unknown").toList
           else if m < 2147483648 then (Nat.repr m).toList
           else '-' :: (Nat.repr (4294967296 - m)).toList) := by
    intro m hm
    by_cases h0 : m = 0
    · simp [h0]
    · simp [h0, formatD, Nat.mod_eq_of_lt hm]
  rw [hfield location.line hline, hfield location.column hcol]

/-- Witness for claim C3 at a concrete location (line 12, column 0). -/
theorem claim_C3_witness :
    (12 : Nat) < 4294967296 ∧ (0 : Nat) < 4294967296 ∧
    sinkBytes (panic_default_events false 7 (("m").toList) ⟨[]⟩
        ⟨("f.cpp").toList, ("fn").toList, 12, 0⟩ []) =
      ("\nthread with hash: ").toList ++ [squote]
      ++ (Nat.repr 7).toList
      ++ ([squote] ++ (" panicked with: ").toList ++ [squote])
      ++ ("m").toList
      ++ (if (ReportPayload.mk []).data.isEmpty then []
          else [':'] ++ [' '] ++ (ReportPayload.mk []).data)
      ++ [squote]
      ++ ((" at function: ").toList ++ [squote])
      ++ (SourceLocation.mk (("f.cpp").toList) (("fn").toList) 12
          0).function_name
      ++ ([squote] ++ (" [").toList)
      ++ (SourceLocation.mk (("f.cpp").toList) (("fn").toList) 12
          0).file_name
      ++ [':']
      ++ (if (12 : Nat) = 0 then ("unknown").toList
          else if (12 : Nat) < 2147483648 then (Nat.repr 12).toList
          else '-' :: (Nat.repr (4294967296 - 12)).toList)
      ++ [':']
      ++ (if (0 : Nat) = 0 then ("unknown").toList
          else if (0 : Nat) < 2147483648 then (Nat.repr 0).toList
          else '-' :: (Nat.repr (4294967296 - 0)).toList)
      ++ ("]\n").toList
      ++ (if false then sinkBytes (btraceEvents []) else []) :=
  ⟨by decide, by decide,
    claim_C3 false 7 (("m").toList) ⟨[]⟩
      ⟨("f.cpp").toList, ("fn").toList, 12, 0⟩ [] (by decide) (by decide)⟩

/-- Counterexample to claim C3 as stated: with the stored line value
`2^31` (a legal non-zero `uint_least32_t`), the rendered line field is
`"-2147483648"` — the `%d` signed reinterpretation — and not the decimal
representation `"2147483648"` of the value. -/
theorem claim_C3_cex :
    sinkBytes (panic_default_events false 7 (("m").toList) ⟨[]⟩
        ⟨("f.cpp").toList, ("fn").toList, 2147483648, 1⟩ []) =
      (("\nthread with hash: ").toList ++ [squote] ++ ("7").toList
        ++ [squote] ++ (" panicked with: ").toList ++ [squote]
        ++ ("m").toList ++ [squote] ++ (" at function: ").toList
        ++ [squote] ++ ("fn").toList ++ [squote] ++ (" [f.cpp:").toList)
      ++ ("-2147483648").toList ++ ((":1]\n").toList)
    ∧ sinkBytes (panic_default_events false 7 (("m").toList) ⟨[]⟩
        ⟨("f.cpp").toList, ("fn").toList, 2147483648, 1⟩ []) ≠
      (("\nthread with hash: ").toList ++ [squote] ++ ("7").toList
        ++ [squote] ++ (" panicked with: ").toList ++ [squote]
        ++ ("m").toList ++ [squote] ++ (" at function: ").toList
        ++ [squote] ++ ("fn").toList ++ [squote] ++ (" [f.cpp:").toList)
      ++ ("2147483648").toList ++ ((":1]\n").toList) := by
  decide

/-- Claim C9: the emitted text is a function of the message, payload,
location, stubbed thread identity (and the captured stack, fixed here so
that even the backtrace portion agrees): two invocations with identical
inputs produce byte-identical sink output. -/
theorem claim_C9 (bt : Bool) (tid₁ tid₂ : Nat) (info₁ info₂ : List Char)
    (payload₁ payload₂ : ReportPayload)
    (location₁ location₂ : SourceLocation) (stack₁ stack₂ : List Frame)
    (htid : tid₁ = tid₂) (hinfo : info₁ = info₂)
    (hpayload : payload₁ = payload₂) (hloc : location₁ = location₂)
    (hstack : stack₁ = stack₂) :
    sinkBytes (panic_default_events bt tid₁ info₁ payload₁ location₁
        stack₁)
      = sinkBytes (panic_default_events bt tid₂ info₂ payload₂ location₂
          stack₂) := by
  subst htid hinfo hpayload hloc hstack
  rfl

/-- Witness for claim C9 at concrete identical inputs. -/
theorem claim_C9_witness :
    (7 : Nat) = 7 ∧
    sinkBytes (panic_default_events false 7 (("m").toList) ⟨[]⟩
        ⟨[], [], 1, 2⟩ [])
      = sinkBytes (panic_default_events false 7 (("m").toList) ⟨[]⟩
          ⟨[], [], 1, 2⟩ []) :=
  ⟨rfl, claim_C9 false 7 7 (("m").toList) (("m").toList) ⟨[]⟩ ⟨[]⟩
    ⟨[], [], 1, 2⟩ ⟨[], [], 1, 2⟩ [] [] rfl rfl rfl rfl rfl⟩

theorem traceFrom_count_nonneg (visit : Frame → Nat → List Event × Bool) :
    ∀ (l : List Frame) (i : Nat), 0 ≤ (traceFrom visit l i).2 := by
  intro l
  induction l with
  | nil => intro i; simp [traceFrom]
  | cons f fs ih =>
    intro i
    by_cases hr : (visit f i).2
    · simp [traceFrom, hr]
      have := ih (i + 1)
      omega
    · simp [traceFrom, hr]

theorem traceFrom_nil_of_nonpos (visit : Frame → Nat → List Event × Bool)
    (l : List Frame) (i : Nat) (h : (traceFrom visit l i).2 ≤ 0) :
    l = [] := by
  cases l with
  | nil => rfl
  | cons f fs =>
    exfalso
    by_cases hr : (visit f i).2
    · have := traceFrom_count_nonneg visit fs (i + 1)
      simp [traceFrom, hr] at h
      omega
    · simp [traceFrom, hr] at h

/-- Claim C7 (amended): when backtrace capture is enabled and the capturer
reports a frame count at or below zero, the handler appends — after the
main diagnostic block and the backtrace header — exactly the single
warning line (whose wording is "couldn't be identified") and a final
newline, with no per-frame data and no error path. -/
theorem claim_C7 (tid : Nat) (info : List Char) (payload : ReportPayload)
    (location : SourceLocation) (stack : List Frame)
    (h : (trace handlerVisit 1 stack).2 ≤ 0) :
    sinkBytes (panic_default_events true tid info payload location stack)
        = sinkBytes (mainEvents tid info payload location)
          ++ backtraceHeader ++ stackWarning ++ ("\n").toList
      ∧ (trace handlerVisit 1 stack).1 = [] := by
  have hnil : stack.drop 1 = [] :=
    traceFrom_nil_of_nonpos handlerVisit (stack.drop 1) 0 h
  constructor
  · simp [panic_default_events, panicBody, btraceEvents, trace, hnil,
      traceFrom, sinkBytes_append, sinkBytes_cons, sinkBytes, bytesOf]
  · simp [trace, hnil, traceFrom]

/-- Witness for claim C7: an empty machine stack yields a nonpositive
frame count, the warning line, and no frame data. -/
theorem claim_C7_witness :
    (trace handlerVisit 1 ([] : List Frame)).2 ≤ 0
    ∧ (sinkBytes (panic_default_events true 7 (("m").toList) ⟨[]⟩
          ⟨[], [], 1, 2⟩ [])
        = sinkBytes (mainEvents 7 (("m").toList) ⟨[]⟩ ⟨[], [], 1, 2⟩)
          ++ backtraceHeader ++ stackWarning ++ ("\n").toList
      ∧ (trace handlerVisit 1 ([] : List Frame)).1 = []) :=
  ⟨by decide,
    claim_C7 7 (("m").toList) ⟨[]⟩ ⟨[], [], 1, 2⟩ [] (by decide)⟩

/-- Counterexample to claim C7 as stated: in the zero-frame scenario the
sink output does not contain the claimed text "could not be identified";
the warning actually emitted reads "couldn't be identified". -/
theorem claim_C7_cex :
    (trace handlerVisit 1 ([] : List Frame)).2 ≤ 0
    ∧ containsSeq (("could not be identified").toList)
        (sinkBytes (panic_default_events true 7 (("m").toList) ⟨[]⟩
          ⟨[], [], 1, 2⟩ [])) = false
    ∧ containsSeq
        (("couldn").toList ++ [squote] ++ ("t be identified").toList)
        (sinkBytes (panic_default_events true 7 (("m").toList) ⟨[]⟩
          ⟨[], [], 1, 2⟩ [])) = true := by
  set_option maxRecDepth 20000 in decide

theorem traceFrom_count_stop (visit : Frame → Nat → List Event × Bool) :
    ∀ (l : List Frame) (i0 k : Nat), 0 < k → k ≤ l.length →
      (∀ j, j + 1 < k →
        (visit (l.getD j ⟨none, none, none⟩) (i0 + j)).2 = true) →
      (visit (l.getD (k - 1) ⟨none, none, none⟩) (i0 + (k - 1))).2
        = false →
      (traceFrom visit l i0).2 = (k : Int) := by
  intro l
  induction l with
  | nil =>
    intro i0 k hk hlen _ _
    simp at hlen
    omega
  | cons f fs ih =>
    intro i0 k hk hlen hcont hstop
    cases k with
    | zero => omega
    | succ k1 =>
      cases k1 with
      | zero =>
        have hs : (visit f i0).2 = false := by simpa using hstop
        simp [traceFrom, hs]
      | succ k2 =>
        have hc0 : (visit f i0).2 = true := by
          have := hcont 0 (by omega)
          simpa using this
        have hlen2 : k2 + 1 ≤ fs.length := by
          simp [List.length_cons] at hlen
          omega
        have hcont2 : ∀ j, j + 1 < k2 + 1 →
            (visit (fs.getD j ⟨none, none, none⟩) (i0 + 1 + j)).2
              = true := by
          intro j hj
          have := hcont (j + 1) (by omega)
          have harith : i0 + (j + 1) = i0 + 1 + j := by omega
          rw [List.getD_cons_succ, harith] at this
          exact this
        have hstop2 : (visit (fs.getD k2 ⟨none, none, none⟩)
            (i0 + 1 + k2)).2 = false := by
          have h1 := hstop
          simp only [Nat.add_sub_cancel, List.getD_cons_succ] at h1
          rw [show i0 + (k2 + 1) = i0 + 1 + k2 from by omega] at h1
          exact h1
        have hrec := ih (i0 + 1) (k2 + 1) (by omega) hlen2 hcont2 hstop2
        simp [traceFrom, hc0, hrec]

/-- Claim C8 (spec-modelled capturer): if the visitor returns `true`
(continue) on its first `k - 1` invocations and `false` on the `k`-th,
backtrace capture stops there and reports exactly `k` visited frames,
however deep the remaining stack is. -/
theorem claim_C8 (visit : Frame → Nat → List Event × Bool)
    (skip k : Nat) (stack : List Frame) (hk : 0 < k)
    (hlen : k ≤ (stack.drop skip).length)
    (hcont : ∀ j, j + 1 < k →
      (visit ((stack.drop skip).getD j ⟨none, none, none⟩) j).2 = true)
    (hstop : (visit ((stack.drop skip).getD (k - 1) ⟨none, none, none⟩)
      (k - 1)).2 = false) :
    (trace visit skip stack).2 = (k : Int) := by
  have := traceFrom_count_stop visit (stack.drop skip) 0 k hk hlen
    (fun j hj => by simpa using hcont j hj)
    (by simpa using hstop)
  exact this

/-- Witness for claim C8 using the handler's own visitor (which cancels on
its first invocation, `k = 1`) on a three-frame stack with skip depth 1:
exactly one frame is visited though two remain after the skip. -/
theorem claim_C8_witness :
    0 < 1
    ∧ 1 ≤ (([⟨none, none, none⟩, ⟨none, none, none⟩,
        ⟨none, none, none⟩] : List Frame).drop 1).length
    ∧ (trace handlerVisit 1 [⟨none, none, none⟩, ⟨none, none, none⟩,
        ⟨none, none, none⟩]).2 = (1 : Int) :=
  ⟨by decide, by decide,
    claim_C8 handlerVisit 1 1
      [⟨none, none, none⟩, ⟨none, none, none⟩, ⟨none, none, none⟩]
      (by decide) (by decide)
      (fun j hj => absurd hj (by omega))
      (by decide)⟩

theorem stepT_of_nil (s : Sys) (t : Nat) (h : s.prog t = []) :
    stepT s t = s := by
  simp [stepT, h]

theorem inv_init (bodies : List (List Event)) :
    Inv bodies (initSys bodies) := by
  refine ⟨?_, [], List.nodup_nil, by simp, Or.inl ⟨rfl, rfl, ?_⟩⟩
  · intro t ht
    simp [initSys, Nat.not_lt.mpr ht]
  · intro t ht
    exact Or.inr ⟨by simp, by simp [initSys, ht]⟩

theorem inv_step (bodies : List (List Event))
    (hb : ∀ b ∈ bodies, ∀ e ∈ b, benign e = true)
    (s : Sys) (t : Nat) (hInv : Inv bodies s) :
    Inv bodies (stepT s t) := by
  obtain ⟨hout, done, hnd, hdb, hcase⟩ := hInv
  rcases hcase with ⟨hhold, houteq, hstat⟩ |
    ⟨h, k, hhold, hhn, hhd, hkle, hph, houteq, hstat⟩
  · -- the mutex is free
    by_cases htn : t < bodies.length
    · rcases hstat t htn with ⟨hmem, hpt⟩ | ⟨hmem, hpt⟩
      · -- finished thread: no-op
        rw [stepT_of_nil s t hpt]
        exact ⟨hout, done, hnd, hdb, Or.inl ⟨hhold, houteq, hstat⟩⟩
      · -- fresh thread acquires the lock
        have hs : stepT s t =
            ⟨updFn s.prog t (bodies.getD t [] ++ [Event.unlock]), some t,
              s.out⟩ := by
          simp [stepT, hpt, fullProg, hhold]
        rw [hs]
        refine ⟨?_, done, hnd, hdb,
          Or.inr ⟨t, 0, rfl, htn, hmem, Nat.zero_le _, ?_, ?_, ?_⟩⟩
        · intro u hu
          have hne : u ≠ t := by omega
          simpa [updFn, hne] using hout u hu
        · simp [updFn]
        · simpa [sinkBytes] using houteq
        · intro u hu hune
          rcases hstat u hu with ⟨hm, hp⟩ | ⟨hm, hp⟩
          · exact Or.inl ⟨hm, by simpa [updFn, hune] using hp⟩
          · exact Or.inr ⟨hm, by simpa [updFn, hune] using hp⟩
    · have hpt : s.prog t = [] := hout t (Nat.le_of_not_lt htn)
      rw [stepT_of_nil s t hpt]
      exact ⟨hout, done, hnd, hdb, Or.inl ⟨hhold, houteq, hstat⟩⟩
  · -- thread h holds the mutex
    by_cases htn : t < bodies.length
    · by_cases hth : t = h
      · subst hth
        rcases Nat.lt_or_ge k (bodies.getD t []).length with hk | hk
        · -- the holder performs the next body event
          have hbody_mem : bodies.getD t [] ∈ bodies := by
            rw [List.getD_eq_getElem bodies [] hhn]
            exact List.getElem_mem hhn
          have hben : benign ((bodies.getD t [])[k]) = true :=
            hb _ hbody_mem _ (List.getElem_mem hk)
          have hpt : s.prog t = (bodies.getD t [])[k] ::
              ((bodies.getD t []).drop (k + 1) ++ [Event.unlock]) := by
            rw [hph, List.drop_eq_getElem_cons hk]
            rfl
          cases hevt : (bodies.getD t [])[k] with
          | lock => rw [hevt] at hben; simp [benign] at hben
          | unlock => rw [hevt] at hben; simp [benign] at hben
          | terminate => rw [hevt] at hben; simp [benign] at hben
          | write b =>
            rw [hevt] at hpt
            have hs : stepT s t =
                ⟨updFn s.prog t
                    ((bodies.getD t []).drop (k + 1) ++ [Event.unlock]),
                  s.holder, s.out ++ b⟩ := by
              simp [stepT, hpt]
            rw [hs]
            refine ⟨?_, done, hnd, hdb,
              Or.inr ⟨t, k + 1, hhold, hhn, hhd, hk, ?_, ?_, ?_⟩⟩
            · intro u hu
              have hne : u ≠ t := by omega
              simpa [updFn, hne] using hout u hu
            · simp [updFn]
            · rw [houteq, List.take_succ, List.getElem?_eq_getElem hk,
                hevt]
              simp [sinkBytes_append, sinkBytes, bytesOf]
            · intro u hu hune
              rcases hstat u hu hune with ⟨hm, hp⟩ | ⟨hm, hp⟩
              · exact Or.inl ⟨hm, by simpa [updFn, hune] using hp⟩
              · exact Or.inr ⟨hm, by simpa [updFn, hune] using hp⟩
          | flush =>
            rw [hevt] at hpt
            have hs : stepT s t =
                ⟨updFn s.prog t
                    ((bodies.getD t []).drop (k + 1) ++ [Event.unlock]),
                  s.holder, s.out⟩ := by
              simp [stepT, hpt]
            rw [hs]
            refine ⟨?_, done, hnd, hdb,
              Or.inr ⟨t, k + 1, hhold, hhn, hhd, hk, ?_, ?_, ?_⟩⟩
            · intro u hu
              have hne : u ≠ t := by omega
              simpa [updFn, hne] using hout u hu
            · simp [updFn]
            · rw [houteq, List.take_succ, List.getElem?_eq_getElem hk,
                hevt]
              simp [sinkBytes_append, sinkBytes, bytesOf]
            · intro u hu hune
              rcases hstat u hu hune with ⟨hm, hp⟩ | ⟨hm, hp⟩
              · exact Or.inl ⟨hm, by simpa [updFn, hune] using hp⟩
              · exact Or.inr ⟨hm, by simpa [updFn, hune] using hp⟩
        · -- the holder releases the lock
          have hkeq : k = (bodies.getD t []).length :=
            Nat.le_antisymm hkle hk
          have hpt : s.prog t = [Event.unlock] := by
            rw [hph, hkeq, List.drop_length]
            simp
          have hs : stepT s t = ⟨updFn s.prog t [], none, s.out⟩ := by
            simp [stepT, hpt, hhold]
          rw [hs]
          refine ⟨?_, done ++ [t], ?_, ?_, Or.inl ⟨rfl, ?_, ?_⟩⟩
          · intro u hu
            have hne : u ≠ t := by omega
            simpa [updFn, hne] using hout u hu
          · simp [List.nodup_append, hnd, hhd]
          · intro u hu
            rcases List.mem_append.mp hu with h1 | h1
            · exact hdb u h1
            · simp at h1
              subst h1
              exact hhn
          · rw [houteq, hkeq, List.take_length]
            simp [List.map_append, List.flatten_append]
          · intro u hu
            by_cases hut : u = t
            · subst hut
              exact Or.inl ⟨by simp, by simp [updFn]⟩
            · rcases hstat u hu hut with ⟨hm, hp⟩ | ⟨hm, hp⟩
              · exact Or.inl ⟨by simp [hm],
                  by simpa [updFn, hut] using hp⟩
              · refine Or.inr ⟨?_, by simpa [updFn, hut] using hp⟩
                simp [List.mem_append, hm, hut]
      · -- a non-holder steps while the mutex is taken
        rcases hstat t htn hth with ⟨hm, hp⟩ | ⟨hm, hp⟩
        · rw [stepT_of_nil s t hp]
          exact ⟨hout, done, hnd, hdb,
            Or.inr ⟨h, k, hhold, hhn, hhd, hkle, hph, houteq, hstat⟩⟩
        · have hs : stepT s t = s := by
            simp [stepT, hp, fullProg, hhold]
          rw [hs]
          exact ⟨hout, done, hnd, hdb,
            Or.inr ⟨h, k, hhold, hhn, hhd, hkle, hph, houteq, hstat⟩⟩
    · have hpt : s.prog t = [] := hout t (Nat.le_of_not_lt htn)
      rw [stepT_of_nil s t hpt]
      exact ⟨hout, done, hnd, hdb,
        Or.inr ⟨h, k, hhold, hhn, hhd, hkle, hph, houteq, hstat⟩⟩

theorem inv_run (bodies : List (List Event))
    (hb : ∀ b ∈ bodies, ∀ e ∈ b, benign e = true) :
    ∀ (sched : List Nat) (s : Sys), Inv bodies s →
      Inv bodies (run s sched) := by
  intro sched
  induction sched with
  | nil => intro s hs; exact hs
  | cons t ts ih => intro s hs; exact ih _ (inv_step bodies hb s t hs)

/-- Mutual-exclusion serialization: for programs that run an all-benign
body inside the lock, every completed interleaved execution leaves the
sink holding a concatenation of the complete per-thread blocks, one per
thread, in some order. -/
theorem mutex_serialization (bodies : List (List Event))
    (hb : ∀ b ∈ bodies, ∀ e ∈ b, benign e = true) (sched : List Nat)
    (hdone : ∀ t, t < bodies.length →
      (run (initSys bodies) sched).prog t = []) :
    ∃ order : List Nat, order.Perm (List.range bodies.length) ∧
      (run (initSys bodies) sched).out
        = (order.map (fun t => sinkBytes (bodies.getD t []))).flatten := by
  have hInv := inv_run bodies hb sched (initSys bodies) (inv_init bodies)
  obtain ⟨hout, done, hnd, hdb, hcase⟩ := hInv
  rcases hcase with ⟨hhold, houteq, hstat⟩ |
    ⟨h, k, hhold, hhn, hhd, hkle, hph, houteq, hstat⟩
  · refine ⟨done, ?_, houteq⟩
    refine (List.perm_ext_iff_of_nodup hnd (List.nodup_range _)).mpr ?_
    intro a
    simp only [List.mem_range]
    constructor
    · exact hdb a
    · intro ha
      rcases hstat a ha with ⟨hm, _⟩ | ⟨hm, hp⟩
      · exact hm
      · exfalso
        have hempty := hdone a ha
        rw [hp] at hempty
        simp [fullProg] at hempty
  · exfalso
    have hempty := hdone h hhn
    rw [hph] at hempty
    simp at hempty

set_option maxHeartbeats 1000000 in
/-- Claim C6: for any number of threads panicking concurrently through
`panic_default` and any schedule that lets them all finish, the sink holds
a concatenation of the threads' complete diagnostic blocks, one block per
thread, with no block's bytes interspersed with another's; the order of
blocks (the lock acquisition order) is unspecified — it is merely some
permutation of the thread indices. -/
theorem claim_C6 (bt : Bool) (calls : List PanicCall) (sched : List Nat)
    (hdone : ∀ t, t < calls.length →
      (run (initSys (calls.map (callBody bt))) sched).prog t = []) :
    ∃ order : List Nat, order.Perm (List.range calls.length) ∧
      (run (initSys (calls.map (callBody bt))) sched).out
        = (order.map (fun t =>
            sinkBytes (callEvents bt (calls.getD t noCall)))).flatten := by
  have hb : ∀ b ∈ calls.map (callBody bt), ∀ e ∈ b, benign e = true := by
    intro b hbm
    rcases List.mem_map.mp hbm with ⟨c, _, rfl⟩
    intro e he
    exact List.all_eq_true.mp
      (all_benign_panicBody bt c.tid c.info c.payload c.loc c.stack) e he
  have hlen : (calls.map (callBody bt)).length = calls.length := by simp
  have hdone2 : ∀ t, t < (calls.map (callBody bt)).length →
      (run (initSys (calls.map (callBody bt))) sched).prog t = [] := by
    rw [hlen]
    exact hdone
  obtain ⟨order, hperm, houteq⟩ :=
    mutex_serialization (calls.map (callBody bt)) hb sched hdone2
  have hperm2 : order.Perm (List.range calls.length) := by
    simpa [hlen] using hperm
  refine ⟨order, hperm2, ?_⟩
  rw [houteq]
  refine congrArg List.flatten ?_
  apply List.map_congr_left
  intro a ha
  have haN : a < calls.length := by
    have := hperm2.mem_iff.mp ha
    simpa [List.mem_range] using this
  rw [List.getD_eq_getElem (calls.map (callBody bt)) []
      (by simpa [hlen] using haN),
    List.getElem_map, List.getD_eq_getElem calls noCall haN]
  simp [callEvents, callBody, panic_default_events, sinkBytes_cons,
    sinkBytes_append, sinkBytes, bytesOf]

set_option maxRecDepth 40000 in
set_option maxHeartbeats 4000000 in
/-- Witness for claim C6: two concrete concurrent panics under a heavily
interleaved alternating schedule; both threads finish, so the sink is a
concatenation of the two complete blocks in some order. -/
theorem claim_C6_witness :
    (∀ t, t < ([wCallA, wCallB] : List PanicCall).length →
      (run (initSys ([wCallA, wCallB].map (callBody false))) wSched).prog t
        = [])
    ∧ ∃ order : List Nat,
        order.Perm (List.range ([wCallA, wCallB] : List PanicCall).length)
        ∧ (run (initSys ([wCallA, wCallB].map (callBody false)))
            wSched).out
          = (order.map (fun t =>
              sinkBytes (callEvents false
                (([wCallA, wCallB] : List PanicCall).getD t
                  noCall)))).flatten := by
  have hdone : ∀ t, t < ([wCallA, wCallB] : List PanicCall).length →
      (run (initSys ([wCallA, wCallB].map (callBody false))) wSched).prog t
        = [] := by
    intro t ht
    simp only [List.length_cons, List.length_nil] at ht
    interval_cases t
    · rfl
    · rfl
  exact ⟨hdone, claim_C6 false [wCallA, wCallB] wSched hdone⟩

end STX
